import Mathlib

/-!
Shallow embedding of `scripts/rss_feed_validator.py` (comic RSS/Atom feed
validator).  Strings are modelled as `List Char`; Python truthiness of an
optional string (`if s:`) is `truthyS`; `str.lower`/`str.strip` are modelled
over ASCII, matching the ASCII-only data the validator heuristics use.
The stdlib HTML tokenizer (`html.parser`) and BeautifulSoup are external
libraries, so an HTML fragment is modelled abstractly as the raw character
data together with the start-tag sequence the tokenizer would emit and the
first-img/following-paragraph view BeautifulSoup would produce.  The network
is modelled by explicit probe outcomes (`Probe`, `FetchOutcome`): `none`
stands for a transport-level exception, `some s` for an HTTP status `s`.
-/

namespace ComicFeed

/-- Characters of a string literal. -/
def lc (s : String) : List Char := s.data

/-- Python whitespace for `str.strip` / `\s` (ASCII part). -/
def isPySpace (c : Char) : Bool :=
  c == ' ' || c == '\t' || c == '\n' || c == '\r' || c == '\x0b' || c == '\x0c'

/-- Python `str.lower`, ASCII part (`Char.toLower` lowers only A–Z). -/
def pyLower (s : List Char) : List Char := s.map Char.toLower

/-- Python `str.strip()` with no argument: remove whitespace at both ends. -/
def pyStrip (s : List Char) : List Char :=
  ((s.dropWhile isPySpace).reverse.dropWhile isPySpace).reverse

/-- Does `hay` start with `needle`? -/
def startsWithCl : List Char → List Char → Bool
  | _, [] => true
  | [], _ :: _ => false
  | a :: as, b :: bs => a == b && startsWithCl as bs

/-- Python substring test `needle in hay`. -/
def containsSub : List Char → List Char → Bool
  | [], needle => needle.isEmpty
  | h :: t, needle => startsWithCl (h :: t) needle || containsSub t needle

/-- Python truthiness of an optional string (`None` and `""` are falsy). -/
def truthyS : Option (List Char) → Bool
  | none => false
  | some s => !s.isEmpty

/-- The last component of splitting on slash, Python `s.split(slash)[-1]`. -/
def lastSlashSegment (s : List Char) : List Char :=
  s.foldl (fun acc c => if c == '/' then [] else acc ++ [c]) []

/-- An apostrophe character, U+0027. -/
def apos : Char := Char.ofNat 39

/-- Em dash U+2014, matched by the alt-text transcript regex. -/
def emDash : Char := Char.ofNat 0x2014

/-- Left curly quotation mark U+201C, a quote signal for captions. -/
def smartQuote : Char := Char.ofNat 0x201C

/-! ### A small regular-expression engine (Brzozowski derivatives)

The caption heuristics of the validator use a handful of `re` patterns; each is
embedded below as a `RE` term and matched with derivative-based full
matching.  `re.match` on a `^...$`-anchored pattern is full-string matching
(the `$`-before-trailing-newline subtlety of Python is not modelled). -/

inductive RE where
  | emp : RE
  | eps : RE
  | cls (p : Char → Bool) : RE
  | seq (a b : RE) : RE
  | alt (a b : RE) : RE
  | star (a : RE) : RE

def RE.nullable : RE → Bool
  | .emp => false
  | .eps => true
  | .cls _ => false
  | .seq a b => a.nullable && b.nullable
  | .alt a b => a.nullable || b.nullable
  | .star _ => true

def RE.deriv : RE → Char → RE
  | .emp, _ => .emp
  | .eps, _ => .emp
  | .cls p, c => if p c then .eps else .emp
  | .seq a b, c =>
      if a.nullable then .alt (.seq (a.deriv c) b) (b.deriv c)
      else .seq (a.deriv c) b
  | .alt a b, c => .alt (a.deriv c) (b.deriv c)
  | .star a, c => .seq (a.deriv c) (.star a)

/-- Full-string matching via derivatives. -/
def reFull (r : RE) (s : List Char) : Bool := (s.foldl RE.deriv r).nullable

/-- Match the literal character `c`. -/
def reChar (c : Char) : RE := .cls (fun x => x == c)

/-- Match a literal string. -/
def reStr (s : List Char) : RE := s.foldr (fun c r => RE.seq (reChar c) r) .eps

/-- Concatenation of a list of regexes. -/
def reCat (l : List RE) : RE := l.foldr RE.seq .eps

/-- `r?` -/
def reOpt (r : RE) : RE := .alt .eps r

/-- `r+` -/
def rePlus (r : RE) : RE := .seq r (.star r)

/-- `r{n}` -/
def reRep (r : RE) : Nat → RE
  | 0 => .eps
  | n + 1 => .seq r (reRep r n)

/-- `\s` -/
def wsCls : RE := .cls isPySpace

/-- `\d` -/
def digitCls : RE := .cls Char.isDigit

/-- `\w` (ASCII part: alphanumeric or underscore). -/
def wordCls : RE := .cls (fun c => c.isAlphanum || c == '_')

/-- The date separator class `[/\\-]`. -/
def sepCls : RE := .cls (fun c => c == '/' || c == '\\' || c == '-')

/-- `\d{4}[/\\-]\d{2}[/\\-]\d{2}` -/
def reYMD : RE :=
  reCat [reRep digitCls 4, sepCls, reRep digitCls 2, sepCls, reRep digitCls 2]

/-- `\w+\s+\d{1,2},\s*\d{4}` (the `Month D, YYYY` shape). -/
def reMonthDY : RE :=
  reCat [rePlus wordCls, rePlus wsCls, digitCls, reOpt digitCls,
         reChar ',', .star wsCls, reRep digitCls 4]

/-- `.` over any character, used to embed `re.search` as a full match. -/
def anyCls : RE := .cls (fun _ => true)

/-- `re.search(r, s)` for a pattern with no anchors: some substring matches. -/
def reSearchAnywhere (r : RE) (s : List Char) : Bool :=
  reFull (.seq (.star anyCls) (.seq r (.star anyCls))) s

/-! ### `RSSFeedValidator._is_generic_caption` -/

/-- `^comic\s*(?:strip|panel)?\s*(?:for|from)?\s*\d{4}[/\\-]\d{2}[/\\-]\d{2}$` -/
def genPat1 : RE :=
  reCat [reStr (lc "comic"), .star wsCls,
         reOpt (.alt (reStr (lc "strip")) (reStr (lc "panel"))), .star wsCls,
         reOpt (.alt (reStr (lc "for")) (reStr (lc "from"))), .star wsCls, reYMD]

/-- `^comic\s*(?:strip|panel)?\s*(?:for|from)?\s*\w+\s+\d{1,2},\s*\d{4}$` -/
def genPat2 : RE :=
  reCat [reStr (lc "comic"), .star wsCls,
         reOpt (.alt (reStr (lc "strip")) (reStr (lc "panel"))), .star wsCls,
         reOpt (.alt (reStr (lc "for")) (reStr (lc "from"))), .star wsCls, reMonthDY]

/-- `^comic\s*(?:of|for)\s+the\s+day$` -/
def genPat3 : RE :=
  reCat [reStr (lc "comic"), .star wsCls,
         .alt (reStr (lc "of")) (reStr (lc "for")), rePlus wsCls,
         reStr (lc "the"), rePlus wsCls, reStr (lc "day")]

/-- `^daily\s+comic$` -/
def genPat4 : RE := reCat [reStr (lc "daily"), rePlus wsCls, reStr (lc "comic")]

/-- `^today[^\w]*s?\s+comic$` -/
def genPat5 : RE :=
  reCat [reStr (lc "today"), .star (.cls (fun c => !(c.isAlphanum || c == '_'))),
         reOpt (reChar 's'), rePlus wsCls, reStr (lc "comic")]

/-- `^strip\s+for\s+\d{4}[/\\-]\d{2}[/\\-]\d{2}$` -/
def genPat6 : RE :=
  reCat [reStr (lc "strip"), rePlus wsCls, reStr (lc "for"), rePlus wsCls, reYMD]

/-- `^for\s+\d{4}[/\\-]\d{2}[/\\-]\d{2}$` -/
def genPat7 : RE := reCat [reStr (lc "for"), rePlus wsCls, reYMD]

/-- The `generic_patterns` table of `_is_generic_caption`. -/
def genericPatterns : List RE :=
  [genPat1, genPat2, genPat3, genPat4, genPat5, genPat6, genPat7]

/-- The `generic_phrases` table of `_is_generic_caption`. -/
def genericPhrases : List (List Char) :=
  [lc "comic strip for", lc "comic for", lc "daily comic",
   lc "today" ++ [apos] ++ lc "s comic",
   lc "this week" ++ [apos] ++ lc "s comic",
   lc "strip for", lc "panel for"]

/-- The `date_patterns` table of `_is_generic_caption`. -/
def datePatterns : List RE := [reYMD, reMonthDY]

/-- `RSSFeedValidator._is_generic_caption`. -/
def is_generic_caption (caption : List Char) : Bool :=
  if caption.isEmpty then true
  else
    let caption_lower := pyStrip (pyLower caption)
    if genericPatterns.any (fun p => reFull p caption_lower) then true
    else if genericPhrases.any (fun ph => containsSub caption_lower ph) then true
    else if datePatterns.any (fun p => reFull p caption_lower) then true
    else false

/-! ### Transcript detection and brand-word detection in `_extract_caption` -/

/-- `panel\s*\d+` -/
def rePanelNum : RE := reCat [reStr (lc "panel"), .star wsCls, rePlus digitCls]

/-- `re.search(r"panel\s*\d+|^panel|narration|sfx|:", text, re.IGNORECASE)`;
with `withEmDash` also the `—` branch of the alt-text variant.  The
`^panel` branch anchors at the start of the string; `IGNORECASE` is modelled
by lowering the text against the lowercase literals. -/
def transcriptSearch (withEmDash : Bool) (text : List Char) : Bool :=
  let tl := pyLower text
  reSearchAnywhere rePanelNum tl ||
  startsWithCl tl (lc "panel") ||
  containsSub tl (lc "narration") ||
  containsSub tl (lc "sfx") ||
  (withEmDash && tl.contains emDash) ||
  tl.contains ':'

/-- `re.fullmatch(r"[A-Z][a-z]+", text)`: a single capitalized word. -/
def brandFullmatch : List Char → Bool
  | [] => false
  | c :: rest =>
      ('A' ≤ c && c ≤ 'Z') && !rest.isEmpty &&
        rest.all (fun d => 'a' ≤ d && d ≤ 'z')

/-! ### HTML fragments, `ImageExtractor`, and the BeautifulSoup view -/

/-- One start tag as emitted by `html.parser` to `handle_starttag`:
the tag name and the attribute list (an attribute value may be `None`). -/
structure StartTag where
  tag : List Char
  attrs : List (List Char × Option (List Char))
deriving DecidableEq

/-- `dict(attrs).get(k)`: the last binding of `k` wins; a missing key and a
`None` value both give `None`. -/
def attrsGet (attrs : List (List Char × Option (List Char))) (k : List Char) :
    Option (List Char) :=
  match attrs.reverse.find? (fun p => p.1 == k) with
  | none => none
  | some p => p.2

/-- The mutable state of `ImageExtractor`. -/
structure ImageExtractor where
  image_url : Option (List Char) := none
  image_title : Option (List Char) := none
  image_alt : Option (List Char) := none
deriving DecidableEq

/-- `ImageExtractor.handle_starttag`. -/
def handle_starttag (st : ImageExtractor) (t : StartTag) : ImageExtractor :=
  if t.tag == lc "img" && !truthyS st.image_url then
    { image_url := attrsGet t.attrs (lc "src"),
      image_title := attrsGet t.attrs (lc "title"),
      image_alt := attrsGet t.attrs (lc "alt") }
  else st

/-- `parser = ImageExtractor(); parser.feed(html)`: fold the start tags. -/
def runExtractor (tags : List StartTag) : ImageExtractor :=
  tags.foldl handle_starttag {}

/-- The paragraph that `img.find_next(p)` of BeautifulSoup yields:
its text (`get_text()`), its `style` attribute (`get(style, empty)`), and
whether it has an `i`/`em` descendant (`find(i, em)`). -/
structure PTag where
  text : List Char
  style : List Char
  hasIEm : Bool
deriving DecidableEq

/-- The BeautifulSoup view of an HTML fragment as read by `_extract_caption`:
no `<img>`, an `<img>` with no following `<p>`, or the first `<img>` with
its nearest following `<p>`. -/
inductive SoupView where
  | noImg : SoupView
  | imgNoP : SoupView
  | imgWithP (p : PTag) : SoupView
deriving DecidableEq

/-- An HTML fragment (the string in a `description`/`content:encoded`/
`summary`/`content` element): the raw characters, the start tags the
tokenizer emits for it, and the BeautifulSoup view of it. -/
structure Html where
  raw : List Char
  tags : List StartTag
  soup : SoupView
deriving DecidableEq

/-- An XML element whose `.text` is plain text (title, link). -/
structure Elem where
  text : Option (List Char)
deriving DecidableEq

/-- An XML element whose `.text` is an HTML fragment. -/
structure HtmlElem where
  text : Option Html
deriving DecidableEq

/-- Truthiness of `elem.text` for an HTML-bearing element. -/
def truthyHtml : Option Html → Bool
  | none => false
  | some h => !h.raw.isEmpty

/-! ### `RSSFeedValidator._extract_caption` -/

/-- The `generic_phrases` set used in the alt-attribute branch. -/
def genericAltPhrases : List (List Char) :=
  [lc "comic", lc "cartoon", lc "image", lc "picture", lc "illustration"]

/-- `RSSFeedValidator._extract_caption`.  The bs4 import is assumed
available (the `except: pass` around the description branch only fires for
parsing failures, which the abstract `SoupView` does not produce). -/
def extract_caption (parser : Option ImageExtractor)
    (item_title feed_name : Option (List Char))
    (description_html : Option Html := none) : Option (List Char) :=
  match parser with
  | none => none
  | some pr =>
    -- description-HTML branch; `some r` is an early `return r` of the whole
    -- function (`r = none` for the generic-caption rejection), `none` falls
    -- through to the image attributes
    let descStep : Option (Option (List Char)) :=
      match description_html with
      | some h =>
        if !h.raw.isEmpty then
          match h.soup with
          | .imgWithP para =>
            let p_text := pyStrip para.text
            if !p_text.isEmpty && 0 < p_text.length && p_text.length ≤ 200 then
              if is_generic_caption p_text then some none
              else
                let has_italic := containsSub para.style (lc "italic") ||
                  para.hasIEm || p_text.contains '"' || p_text.contains smartQuote
                if has_italic && !transcriptSearch false p_text then
                  some (some p_text)
                else none
            else none
          | _ => none
        else none
      | none => none
    match descStep with
    | some r => r
    | none =>
      -- 1. `<img title="…">` (xkcd style)
      let titleStep : Option (List Char) :=
        match pr.image_title with
        | some t =>
          if !t.isEmpty then
            let text := pyStrip t
            if 0 < text.length && text.length ≤ 200 &&
               !is_generic_caption text then some text
            else none
          else none
        | none => none
      match titleStep with
      | some t => some t
      | none =>
        -- 2. short alt, rejecting transcripts / generic echoes
        match pr.image_alt with
        | some a =>
          if !a.isEmpty then
            let text := pyStrip a
            if transcriptSearch true text then none
            else
              let normalized := pyLower text
              let bad := (([item_title, feed_name].filterMap id).filter
                (fun t => !t.isEmpty)).map pyLower
              if bad.contains normalized then none
              else if brandFullmatch text then none
              else if genericAltPhrases.any
                        (fun ph => containsSub normalized ph) then none
              else if is_generic_caption text then none
              else if 0 < text.length && text.length ≤ 140 then some text
              else none
          else none
        | none => none

/-! ### `RSSFeedValidator._is_valid_image_url` (via `urllib.parse.urlparse`) -/

/-- A character allowed after the first one in a URL scheme. -/
def isSchemeChar (c : Char) : Bool :=
  c.isAlphanum || c == '+' || c == '-' || c == '.'

/-- `urlparse(u).scheme` and the remainder: the scheme is the part before
the first `:` when it is a valid scheme token, otherwise empty. -/
def urlSplitScheme (u : List Char) : List Char × List Char :=
  match u.findIdx? (fun c => c == ':') with
  | some i =>
    match u.take i with
    | [] => ([], u)
    | c :: rest =>
      if c.isAlpha && rest.all isSchemeChar then
        (pyLower (c :: rest), u.drop (i + 1))
      else ([], u)
  | none => ([], u)

/-- `urlparse(u).netloc`: non-empty only when the remainder after the
scheme starts with `//`; runs to the next `/`, `?` or `#`. -/
def urlparseNetloc (rest : List Char) : List Char :=
  match rest with
  | '/' :: '/' :: r =>
      r.takeWhile (fun c => !(c == '/') && !(c == '?') && !(c == '#'))
  | _ => []

/-- `RSSFeedValidator._is_valid_image_url`. -/
def is_valid_image_url (u : List Char) : Bool :=
  if u.isEmpty then false
  else
    let sp := urlSplitScheme u
    if sp.1.isEmpty || (urlparseNetloc sp.2).isEmpty then false
    else true

/-! ### `RSSFeedValidator._test_image_access` -/

/-- The answers of the network to the two probes `_test_image_access` can issue
on one image URL: the HEAD status and the streamed-GET status; `none` is a
`requests.RequestException`. -/
structure Probe where
  headStatus : Option Nat
  getStatus : Option Nat
deriving DecidableEq

/-- `RSSFeedValidator._test_image_access`: `true` = accessible.  A raised
`RequestException` in either request is caught by the surrounding `try` and
yields `true`. -/
def test_image_access (p : Probe) : Bool :=
  match p.headStatus with
  | none => true
  | some s =>
    if s == 403 then false
    else if 400 ≤ s then
      match p.getStatus with
      | none => true
      | some g =>
        if g == 403 then false
        else if 400 ≤ g then false
        else true
    else true

/-! ### Feed documents as the validator reads them

`find` calls that try a namespaced and a plain element name are collapsed
into one optional field holding whichever element the lookups resolve. -/

/-- An RSS `enclosure` element (its `url` attribute). -/
structure EnclosureElem where
  url : Option (List Char)
deriving DecidableEq

/-- The parts of the first RSS `item` the validator reads. -/
structure RssItem where
  title : Option Elem
  link : Option Elem
  description : Option HtmlElem
  content_encoded : Option HtmlElem
  enclosure : Option EnclosureElem
deriving DecidableEq

/-- The RSS `channel` element. -/
structure RssChannel where
  items : List RssItem
deriving DecidableEq

/-- A parsed RSS document root. -/
structure RssRoot where
  channel : Option RssChannel
deriving DecidableEq

/-- An Atom `link` element (its `href` attribute). -/
structure AtomLink where
  href : Option (List Char)
deriving DecidableEq

/-- The parts of the first Atom `entry` the validator reads. -/
structure AtomEntry where
  title : Option Elem
  link : Option AtomLink
  summary : Option HtmlElem
  content : Option HtmlElem
deriving DecidableEq

/-- A parsed Atom document root. -/
structure AtomRoot where
  entries : List AtomEntry
deriving DecidableEq

/-- `ValidationResult` (the dataclass). -/
structure ValidationResult where
  url : List Char
  is_valid : Bool
  name : Option (List Char) := none
  error_message : Option (List Char) := none
  comic_title : Option (List Char) := none
  image_url : Option (List Char) := none
  image_source : Option (List Char) := none
  feed_type : Option (List Char) := none
  link : Option (List Char) := none
  caption : Option (List Char) := none
deriving DecidableEq

/-! ### Promo classification -/

/-- The `link_has_date` computation of `_is_generic_promo_rss`. -/
def rssLinkHasDate (item : RssItem) : Bool :=
  match item.link with
  | some l =>
    match l.text with
    | some link_text =>
        !link_text.isEmpty && (lastSlashSegment link_text).any Char.isDigit
    | none => false
  | none => false

/-- `RSSFeedValidator._is_generic_promo_rss`.  (`title_lower` is computed
in the source but never used.) -/
def is_generic_promo_rss (item : RssItem) (_title : Option (List Char)) : Bool :=
  let link_has_date := rssLinkHasDate item
  if !link_has_date then
    let imgPromo : Bool :=
      match item.description with
      | some d =>
        match d.text with
        | some h =>
          if !h.raw.isEmpty then
            match (runExtractor h.tags).image_url with
            | some iu =>
              if !iu.isEmpty then
                let url_lower := pyLower iu
                if containsSub url_lower (lc "generic_fb") ||
                   containsSub url_lower (lc "social_fb_generic") then true
                else if containsSub url_lower (lc "gocomicscmsassets") &&
                        !link_has_date then true
                else false
              else false
            | none => false
          else false
        | none => false
      | none => false
    if imgPromo then true
    else
      let desc_lower : List Char :=
        match item.description with
        | some d =>
          match d.text with
          | some h => if !h.raw.isEmpty then pyLower h.raw else []
          | none => []
        | none => []
      if containsSub desc_lower (lc "explore the archive") &&
         containsSub desc_lower (lc "read extra content") then true
      else false
  else false

/-- The `link_has_date` computation of `_is_generic_promo_atom`. -/
def atomLinkHasDate (link_elem : Option AtomLink) : Bool :=
  match link_elem with
  | some l =>
    match l.href with
    | some h => !h.isEmpty && (lastSlashSegment h).any Char.isDigit
    | none => false
  | none => false

/-- `RSSFeedValidator._is_generic_promo_atom` (`title` is passed but the
source never reads it). -/
def is_generic_promo_atom (entry : AtomEntry) (_title : Option (List Char))
    (link_elem : Option AtomLink) : Bool :=
  let link_has_date := atomLinkHasDate link_elem
  if !link_has_date then
    match entry.summary with
    | some s =>
      match s.text with
      | some h =>
        if !h.raw.isEmpty then
          let imgPromo : Bool :=
            match (runExtractor h.tags).image_url with
            | some iu =>
              if !iu.isEmpty then
                let url_lower := pyLower iu
                if containsSub url_lower (lc "generic_fb") ||
                   containsSub url_lower (lc "social_fb_generic") then true
                else if containsSub url_lower (lc "gocomicscmsassets") then true
                else false
              else false
            | none => false
          if imgPromo then true
          else
            let summary_lower := pyLower h.raw
            containsSub summary_lower (lc "explore the archive") &&
            containsSub summary_lower (lc "read extra content")
        else false
      | none => false
    | none => false
  else false

/-! ### The per-feed validators -/

/-- Python `a or b` on optional HTML strings: `a` when truthy, else `b`. -/
def htmlOrElse (a b : Option Html) : Option Html :=
  match a with
  | some h => if !h.raw.isEmpty then some h else b
  | none => b

/-- `str(AttributeError)` for `None.text`, raised when the enclosure path
builds its result while the item has no `description` element (the message
Python prints, with U+0027 quotes). -/
def noneTypeTextMsg : List Char :=
  [apos] ++ lc "NoneType" ++ [apos] ++ lc " object has no attribute " ++
    [apos] ++ lc "text" ++ [apos]

/-- The `title` resolution of `_validate_rss_feed`:
`title_elem.text if title_elem is not None else "Untitled"`. -/
def rssItemTitle (item : RssItem) : Option (List Char) :=
  match item.title with
  | some t => t.text
  | none => some (lc "Untitled")

/-- The `comic_link` resolution of `_validate_rss_feed`. -/
def rssItemLink (item : RssItem) : Option (List Char) :=
  match item.link with
  | some l => l.text
  | none => none

/-- The invalid result `_validate_rss_feed` returns on hotlink protection. -/
def rssHotlinkResult (url : List Char) (name : Option (List Char)) :
    ValidationResult :=
  { url := url, name := name, is_valid := false,
    error_message := some (lc "Image has hotlink protection (403 Forbidden)"),
    feed_type := some (lc "rss") }

/-- The invalid result `_validate_rss_feed` returns when no source gave a
valid image. -/
def rssNoImageResult (url : List Char) (name : Option (List Char)) :
    ValidationResult :=
  { url := url, name := name, is_valid := false,
    error_message := some (lc "No valid image found in enclosure, description, or content:encoded"),
    feed_type := some (lc "rss") }

/-- The `content:encoded` attempt of `_validate_rss_feed` (the code the
description attempt falls through to). -/
def rssTryContentEncoded (net : List Char → Probe) (first_item : RssItem)
    (url : List Char) (name : Option (List Char)) : ValidationResult :=
  match first_item.content_encoded with
  | some ce =>
    match ce.text with
    | some h =>
      if !h.raw.isEmpty then
        let parser := runExtractor h.tags
        match parser.image_url with
        | some iu =>
          if !iu.isEmpty && is_valid_image_url iu then
            if !test_image_access (net iu) then rssHotlinkResult url name
            else
              { url := url, name := name, is_valid := true,
                comic_title := rssItemTitle first_item, image_url := some iu,
                image_source := some (lc "content:encoded"),
                feed_type := some (lc "rss"), link := rssItemLink first_item,
                caption := extract_caption (some parser)
                  (rssItemTitle first_item) name }
          else rssNoImageResult url name
        | none => rssNoImageResult url name
      else rssNoImageResult url name
    | none => rssNoImageResult url name
  | none => rssNoImageResult url name

/-- The `description` attempt of `_validate_rss_feed` (the code the
enclosure attempt falls through to). -/
def rssTryDescription (net : List Char → Probe) (first_item : RssItem)
    (url : List Char) (name : Option (List Char)) : ValidationResult :=
  match first_item.description with
  | some d =>
    match d.text with
    | some h =>
      if !h.raw.isEmpty then
        let parser := runExtractor h.tags
        match parser.image_url with
        | some iu =>
          if !iu.isEmpty && is_valid_image_url iu then
            if !test_image_access (net iu) then rssHotlinkResult url name
            else
              { url := url, name := name, is_valid := true,
                comic_title := rssItemTitle first_item, image_url := some iu,
                image_source := some (lc "description"),
                feed_type := some (lc "rss"), link := rssItemLink first_item,
                caption := extract_caption (some parser)
                  (rssItemTitle first_item) name (some h) }
          else rssTryContentEncoded net first_item url name
        | none => rssTryContentEncoded net first_item url name
      else rssTryContentEncoded net first_item url name
    | none => rssTryContentEncoded net first_item url name
  | none => rssTryContentEncoded net first_item url name

/-- `RSSFeedValidator._validate_rss_feed`.  `Except.error` models the
`AttributeError` the source raises (and `validate_feed` catches) when the
enclosure branch evaluates `description.text` with no description element;
every other outcome is `Except.ok`. -/
def validate_rss_feed (net : List Char → Probe) (root : RssRoot)
    (url : List Char) (name : Option (List Char)) :
    Except (List Char) ValidationResult :=
  match root.channel with
  | none =>
    .ok { url := url, name := name, is_valid := false,
          error_message := some (lc "No channel element found in RSS"),
          feed_type := some (lc "rss") }
  | some channel =>
    match channel.items with
    | [] =>
      .ok { url := url, name := name, is_valid := false,
            error_message := some (lc "No items found in RSS feed"),
            feed_type := some (lc "rss") }
    | first_item :: _ =>
      if is_generic_promo_rss first_item (rssItemTitle first_item) then
        .ok { url := url, name := name, is_valid := false,
              error_message :=
                some (lc "Feed contains only generic promotional content"),
              feed_type := some (lc "rss") }
      else
        -- try enclosure first (preferred method for the image)
        match first_item.enclosure with
        | some enc =>
          match enc.url with
          | some image_url =>
            if !image_url.isEmpty && is_valid_image_url image_url then
              if !test_image_access (net image_url) then
                .ok (rssHotlinkResult url name)
              else
                let caption_text : Option Html :=
                  htmlOrElse
                    (match first_item.content_encoded with
                     | some ce => ce.text
                     | none => none)
                    (match first_item.description with
                     | some d => d.text
                     | none => none)
                let captionExtr : Option ImageExtractor :=
                  match caption_text with
                  | some h =>
                    if !h.raw.isEmpty then some (runExtractor h.tags) else none
                  | none => none
                match first_item.description with
                | none => .error noneTypeTextMsg
                | some d =>
                  .ok { url := url, name := name, is_valid := true,
                        comic_title := rssItemTitle first_item,
                        image_url := some image_url,
                        image_source := some (lc "enclosure"),
                        feed_type := some (lc "rss"),
                        link := rssItemLink first_item,
                        caption := extract_caption captionExtr
                          (rssItemTitle first_item) name d.text }
            else .ok (rssTryDescription net first_item url name)
          | none => .ok (rssTryDescription net first_item url name)
        | none => .ok (rssTryDescription net first_item url name)

/-- The `title` resolution of `_validate_atom_feed`. -/
def atomEntryTitle (entry : AtomEntry) : Option (List Char) :=
  match entry.title with
  | some t => t.text
  | none => some (lc "Untitled")

/-- The `comic_link` resolution of `_validate_atom_feed`. -/
def atomEntryLink (entry : AtomEntry) : Option (List Char) :=
  match entry.link with
  | some l => l.href
  | none => none

/-- `summary.text` when the entry has a summary element. -/
def atomSummaryText (entry : AtomEntry) : Option Html :=
  match entry.summary with
  | some s => s.text
  | none => none

/-- `content.text` when the entry has a content element. -/
def atomContentText (entry : AtomEntry) : Option Html :=
  match entry.content with
  | some c => c.text
  | none => none

/-- The `description_text` selection of `_validate_atom_feed`: summary text
when truthy, else content text when truthy, else `None`. -/
def atomDescriptionText (entry : AtomEntry) : Option Html :=
  if truthyHtml (atomSummaryText entry) then atomSummaryText entry
  else if truthyHtml (atomContentText entry) then atomContentText entry
  else none

/-- `RSSFeedValidator._validate_atom_feed`. -/
def validate_atom_feed (net : List Char → Probe) (root : AtomRoot)
    (url : List Char) (name : Option (List Char)) : ValidationResult :=
  match root.entries with
  | [] =>
    { url := url, name := name, is_valid := false,
      error_message := some (lc "No entries found in Atom feed"),
      feed_type := some (lc "atom") }
  | first_entry :: _ =>
    if is_generic_promo_atom first_entry (atomEntryTitle first_entry)
        first_entry.link then
      { url := url, name := name, is_valid := false,
        error_message :=
          some (lc "Feed contains only generic promotional content"),
        feed_type := some (lc "atom") }
    else
      let noImage : ValidationResult :=
        { url := url, name := name, is_valid := false,
          error_message := some (lc "No valid image found in summary or content"),
          feed_type := some (lc "atom") }
      match atomDescriptionText first_entry with
      | some h =>
        if !h.raw.isEmpty then
          let parser := runExtractor h.tags
          match parser.image_url with
          | some iu =>
            if !iu.isEmpty && is_valid_image_url iu then
              if !test_image_access (net iu) then
                { url := url, name := name, is_valid := false,
                  error_message :=
                    some (lc "Image has hotlink protection (403 Forbidden)"),
                  feed_type := some (lc "atom") }
              else
                { url := url, name := name, is_valid := true,
                  comic_title := atomEntryTitle first_entry,
                  image_url := some iu,
                  image_source := some (lc "summary"),
                  feed_type := some (lc "atom"),
                  link := atomEntryLink first_entry,
                  caption := extract_caption (some parser)
                    (atomEntryTitle first_entry) name }
            else noImage
          | none => noImage
        else noImage
      | none => noImage

/-- What fetching and XML-parsing one feed URL can yield, as seen by
`validate_feed`: a raised `requests.RequestException`, a raised
`ET.ParseError`, or a parsed document whose root is `rss`, `feed`, or
something else (carrying `root.tag` for the message). -/
inductive FetchOutcome where
  | requestError (msg : List Char) : FetchOutcome
  | xmlParseError (msg : List Char) : FetchOutcome
  | rssDoc (root : RssRoot) : FetchOutcome
  | atomDoc (root : AtomRoot) : FetchOutcome
  | unknownDoc (tag : List Char) : FetchOutcome

/-- `RSSFeedValidator.validate_feed`: dispatch on the fetch outcome and the
root tag; every raised error is converted to an invalid result here. -/
def validate_feed (net : List Char → Probe) (fetched : FetchOutcome)
    (url : List Char) (name : Option (List Char)) : ValidationResult :=
  match fetched with
  | .requestError m =>
    { url := url, name := name, is_valid := false,
      error_message := some (lc "Request failed: " ++ m) }
  | .xmlParseError m =>
    { url := url, name := name, is_valid := false,
      error_message := some (lc "XML parsing failed: " ++ m) }
  | .unknownDoc tag =>
    { url := url, name := name, is_valid := false,
      error_message := some (lc "Unknown feed type: " ++ tag) }
  | .rssDoc root =>
    match validate_rss_feed net root url name with
    | .ok r => r
    | .error m =>
      { url := url, name := name, is_valid := false,
        error_message := some (lc "Unexpected error: " ++ m) }
  | .atomDoc root => validate_atom_feed net root url name

/-- `RSSFeedValidator.validate_multiple_feeds`: iterate the name→URL
mapping in order, partitioning the per-feed results by `is_valid`.  The
network is a pair of oracles: `fetch` for the feed-URL request+parse and
`net` for image probes. -/
def validate_multiple_feeds (net : List Char → Probe)
    (fetch : List Char → FetchOutcome) :
    List (List Char × List Char) →
      List ValidationResult × List ValidationResult
  | [] => ([], [])
  | (name, url) :: rest =>
    let result := validate_feed net (fetch url) url (some name)
    let vi := validate_multiple_feeds net fetch rest
    if result.is_valid then (result :: vi.1, vi.2)
    else (vi.1, result :: vi.2)

/-! ### Derived notions used by the statements -/

/-- A start tag that `handle_starttag` latches onto for good: an `img`
whose `src` attribute is present and non-empty. -/
def imgSrcTruthy (t : StartTag) : Bool :=
  t.tag == lc "img" && truthyS (attrsGet t.attrs (lc "src"))

/-- The first `<img>` tag of the stream with a present, non-empty `src`. -/
def firstTruthySrcImg (tags : List StartTag) : Option StartTag :=
  tags.find? imgSrcTruthy

/-- The result invariant every validator outcome satisfies: a valid result
carries a non-empty, syntactically valid image URL, an `image_source` drawn
from the four source tags the code writes, and a `feed_type`; an invalid
result carries an error message and no image URL. -/
def strongProps (r : ValidationResult) : Prop :=
  (r.is_valid = true →
    (∃ u, r.image_url = some u ∧ u.isEmpty = false ∧
      is_valid_image_url u = true) ∧
    (r.image_source = some (lc "enclosure") ∨
     r.image_source = some (lc "description") ∨
     r.image_source = some (lc "content:encoded") ∨
     r.image_source = some (lc "summary")) ∧
    r.feed_type.isSome = true) ∧
  (r.is_valid = false →
    r.error_message.isSome = true ∧ r.image_url = none)

/-! ### Concrete inputs for the scenario claims and the witnesses -/

/-- A probe oracle on which every request succeeds with HTTP 200. -/
def netAllOK : List Char → Probe := fun _ => ⟨some 200, some 200⟩

/-- A probe oracle on which every HEAD answers 403. -/
def net403 : List Char → Probe := fun _ => ⟨some 403, some 200⟩

/-- Scenario A: one RSS item with an enclosure image, a dated-looking link
ending in the segment `strip`, and an empty `description` element. -/
def scenarioAItem : RssItem :=
  { title := some ⟨some (lc "Strip")⟩,
    link := some ⟨some (lc "https://comics.example/2024/05/01/strip")⟩,
    description := some ⟨none⟩,
    content_encoded := none,
    enclosure := some ⟨some (lc "https://cdn.example/a.png")⟩ }

/-- Scenario A variant whose description element carries image-free text. -/
def scenarioAItemTextDesc : RssItem :=
  { scenarioAItem with
    description := some ⟨some ⟨lc "<p>New strip today</p>",
      [⟨lc "p", []⟩], .noImg⟩⟩ }

/-- A feed URL used by the concrete scenarios. -/
def scenarioAUrl : List Char := lc "https://comics.example/rss"

/-- The summary of the C3 entry: text but no `<img>`. -/
def c3summaryHtml : Html := ⟨lc "Read the latest strip!", [], .noImg⟩

/-- The content of the C3 entry: a syntactically valid `<img src>`. -/
def c3contentHtml : Html :=
  ⟨lc "<img src=b>",
   [⟨lc "img", [(lc "src", some (lc "https://cdn.example/b.png"))]⟩],
   .imgNoP⟩

/-- An Atom entry whose summary has text but no image while its content
holds a valid image. -/
def c3entry : AtomEntry :=
  { title := some ⟨some (lc "T")⟩,
    link := some ⟨some (lc "https://comics.example/2024/05/02")⟩,
    summary := some ⟨some c3summaryHtml⟩,
    content := some ⟨some c3contentHtml⟩ }

/-- An Atom entry with no summary element and a content image: the image is
located in `content`. -/
def c4entry : AtomEntry :=
  { title := some ⟨some (lc "T")⟩,
    link := some ⟨some (lc "https://comics.example/2024/05/02")⟩,
    summary := none,
    content := some ⟨some c3contentHtml⟩ }

/-- An RSS item whose only image lives in `content:encoded`. -/
def ceItem : RssItem :=
  { title := some ⟨some (lc "T")⟩,
    link := some ⟨some (lc "https://comics.example/2024/05/02/x")⟩,
    description := none,
    content_encoded := some ⟨some ⟨lc "<img src=ce>",
      [⟨lc "img", [(lc "src", some (lc "https://cdn.example/ce.png"))]⟩],
      .imgNoP⟩⟩,
    enclosure := none }

/-- The structural-paragraph caption candidate of C9. -/
def c9pText : List Char := lc "He muttered, \"not again.\""

/-- Description HTML whose first `<img>` is followed by a quoted
paragraph. -/
def c9html : Html :=
  ⟨lc "<img src=c><p>quote</p>",
   [⟨lc "img", [(lc "src", some (lc "https://cdn.example/c.png"))]⟩],
   .imgWithP ⟨c9pText, [], false⟩⟩

/-- The extractor state after feeding `c9html`. -/
def c9parser : ImageExtractor := runExtractor c9html.tags

/-- A link whose last path segment has no digit. -/
def promoLinkElem : Elem := ⟨some (lc "https://comics.example/archive/promo")⟩

/-- Description text carrying both promo phrases. -/
def promoHtml : Html :=
  ⟨lc "Explore the archive and read extra content today!", [], .noImg⟩

/-- An RSS item with both promo phrases, a non-dated link, and an
enclosure image (to show rejection happens regardless of the image). -/
def promoItem : RssItem :=
  { title := some ⟨some (lc "Check this out")⟩,
    link := some promoLinkElem,
    description := some ⟨some promoHtml⟩,
    content_encoded := none,
    enclosure := some ⟨some (lc "https://cdn.example/a.png")⟩ }

/-- A link element whose last path segment contains digits. -/
def datedLinkElem : Elem := ⟨some (lc "https://comics.example/strip/20240501")⟩

/-- An RSS item with a dated link and every promo signal present. -/
def datedRssItem : RssItem :=
  { title := some ⟨some (lc "T")⟩,
    link := some datedLinkElem,
    description := some ⟨some ⟨lc "Explore the archive and read extra content",
      [⟨lc "img",
        [(lc "src", some (lc "https://x.example/social_fb_generic.png"))]⟩],
      .noImg⟩⟩,
    content_encoded := none,
    enclosure := none }

/-- An Atom link whose `href` has a digit-bearing last segment. -/
def datedAtomLink : AtomLink := ⟨some (lc "https://comics.example/strip/20240501")⟩

/-- An Atom entry with a dated link and every promo signal present. -/
def datedAtomEntry : AtomEntry :=
  { title := some ⟨some (lc "T")⟩,
    link := some datedAtomLink,
    summary := some ⟨some ⟨lc "Explore the archive and read extra content",
      [⟨lc "img", [(lc "src", some (lc "https://x.example/generic_fb.png"))]⟩],
      .noImg⟩⟩,
    content := none }

/-- The enclosure of the hotlink-protected item. -/
def hotEnc : EnclosureElem := ⟨some (lc "https://img.example/a.png")⟩

/-- An RSS item that is valid in every respect except image access. -/
def hotItem : RssItem :=
  { title := some ⟨some (lc "T")⟩,
    link := some ⟨some (lc "https://comics.example/2024/05/01/x")⟩,
    description := some ⟨none⟩,
    content_encoded := none,
    enclosure := some hotEnc }

/-- The first `<img>` of the C10 witness stream with a non-empty `src`. -/
def w10good : StartTag :=
  ⟨lc "img", [(lc "src", some (lc "https://img.example/real.png")),
              (lc "title", some (lc "Hover text")),
              (lc "alt", some (lc "Alt text"))]⟩

/-- A tag stream with a src-less `<img>` and an empty-src `<img>` before
the first accepted one, and another `<img>` after it. -/
def w10tags : List StartTag :=
  [⟨lc "p", []⟩,
   ⟨lc "img", [(lc "alt", some (lc "no src here"))]⟩,
   ⟨lc "img", [(lc "src", some []), (lc "title", some (lc "empty src"))]⟩,
   w10good,
   ⟨lc "img", [(lc "src", some (lc "https://img.example/later.png"))]⟩]

/-- A two-feed batch input. -/
def feedsW : List (List Char × List Char) :=
  [(lc "good", lc "https://a.example/rss"), (lc "bad", lc "https://b.example/rss")]

/-- A fetch oracle giving the first feed a valid RSS document and the
second an unknown root tag. -/
def fetchW : List Char → FetchOutcome := fun u =>
  if u == lc "https://a.example/rss" then .rssDoc ⟨some ⟨[scenarioAItem]⟩⟩
  else .unknownDoc (lc "html")

/-! ## Helper lemmas -/

/-- Once the extractor holds a truthy `src`, later start tags change
nothing. -/
theorem foldl_handle_of_truthy (tags : List StartTag) (st : ImageExtractor)
    (h : truthyS st.image_url = true) :
    tags.foldl handle_starttag st = st := by
  induction tags with
  | nil => rfl
  | cons hd tl ih =>
    have hstep : handle_starttag st hd = st := by
      unfold handle_starttag
      simp [h]
    rw [List.foldl_cons, hstep, ih]

/-- Folding from a non-truthy state lands exactly on the attributes of the
first `img` tag with a truthy `src`. -/
theorem foldl_handle_first_img (tags : List StartTag) :
    ∀ (st : ImageExtractor) (t : StartTag),
    truthyS st.image_url = false → firstTruthySrcImg tags = some t →
    tags.foldl handle_starttag st =
      { image_url := attrsGet t.attrs (lc "src"),
        image_title := attrsGet t.attrs (lc "title"),
        image_alt := attrsGet t.attrs (lc "alt") } := by
  induction tags with
  | nil => intro st t _ hf; simp [firstTruthySrcImg] at hf
  | cons hd tl ih =>
    intro st t hst hf
    unfold firstTruthySrcImg at hf
    by_cases hp : imgSrcTruthy hd
    · rw [List.find?_cons_of_pos _ hp] at hf
      cases hf
      have htag : (hd.tag == lc "img") = true := by
        unfold imgSrcTruthy at hp
        exact (Bool.and_eq_true _ _ |>.mp hp).1
      have hsrc : truthyS (attrsGet hd.attrs (lc "src")) = true := by
        unfold imgSrcTruthy at hp
        exact (Bool.and_eq_true _ _ |>.mp hp).2
      have hstep : handle_starttag st hd =
          { image_url := attrsGet hd.attrs (lc "src"),
            image_title := attrsGet hd.attrs (lc "title"),
            image_alt := attrsGet hd.attrs (lc "alt") } := by
        unfold handle_starttag
        simp [htag, hst]
      rw [List.foldl_cons, hstep, foldl_handle_of_truthy]
      simpa using hsrc
    · rw [List.find?_cons_of_neg _ hp] at hf
      rw [List.foldl_cons]
      apply ih _ t _ hf
      unfold handle_starttag
      by_cases htag : (hd.tag == lc "img") = true
      · simp only [htag, hst]
        simp only [Bool.not_false, Bool.and_true, if_pos rfl]
        unfold imgSrcTruthy at hp
        simp [htag] at hp
        simpa using hp
      · simp [htag, hst]

/-- A dated RSS link (digit in the last path segment) forces
`link_has_date`, so the promo classifier answers `false`. -/
theorem promo_rss_false_of_dated (item : RssItem) (t : Option (List Char))
    (le : Elem) (l : List Char)
    (hle : item.link = some le) (hlt : le.text = some l)
    (hd : (lastSlashSegment l).any Char.isDigit = true) :
    is_generic_promo_rss item t = false := by
  have hld : rssLinkHasDate item = true := by
    have hne : l.isEmpty = false := by
      cases l with
      | nil => simp [lastSlashSegment] at hd
      | cons a as => rfl
    simp [rssLinkHasDate, hle, hlt, hne, hd]
  simp [is_generic_promo_rss, hld]

/-- The Atom analogue of `promo_rss_false_of_dated`. -/
theorem promo_atom_false_of_dated (entry : AtomEntry) (t : Option (List Char))
    (lk : AtomLink) (href : List Char)
    (hh : lk.href = some href)
    (hd : (lastSlashSegment href).any Char.isDigit = true) :
    is_generic_promo_atom entry t (some lk) = false := by
  have hld : atomLinkHasDate (some lk) = true := by
    have hne : href.isEmpty = false := by
      cases href with
      | nil => simp [lastSlashSegment] at hd
      | cons a as => rfl
    simp [atomLinkHasDate, hh, hne, hd]
  simp [is_generic_promo_atom, hld]

/-- Characterization of an inaccessible probe. -/
theorem access_false_iff (p : Probe) :
    test_image_access p = false ↔
      ∃ s, p.headStatus = some s ∧
        (s = 403 ∨ (400 ≤ s ∧ ∃ g, p.getStatus = some g ∧
          (g = 403 ∨ 400 ≤ g))) := by
  obtain ⟨hs, gs⟩ := p
  cases hs with
  | none => simp [test_image_access]
  | some s =>
    cases gs with
    | none =>
      simp only [test_image_access]
      split_ifs with h1 h2 <;> simp_all
    | some g =>
      simp only [test_image_access]
      split_ifs with h1 h2 h3 h4 <;> simp_all

/-- The `content:encoded` attempt satisfies the result invariant. -/
theorem strong_tryCE (net : List Char → Probe) (item : RssItem)
    (url : List Char) (name : Option (List Char)) :
    strongProps (rssTryContentEncoded net item url name) := by
  simp only [strongProps, rssTryContentEncoded]
  repeat' split
  all_goals simp_all [rssHotlinkResult, rssNoImageResult]

/-- The description attempt satisfies the result invariant. -/
theorem strong_tryDesc (net : List Char → Probe) (item : RssItem)
    (url : List Char) (name : Option (List Char)) :
    strongProps (rssTryDescription net item url name) := by
  simp only [rssTryDescription]
  repeat' split
  all_goals first
    | exact strong_tryCE net item url name
    | simp_all [strongProps, rssHotlinkResult]

/-- Every `ok` outcome of the RSS validator satisfies the invariant. -/
theorem strong_rss (net : List Char → Probe) (root : RssRoot)
    (url : List Char) (name : Option (List Char)) (r : ValidationResult)
    (h : validate_rss_feed net root url name = .ok r) : strongProps r := by
  simp only [validate_rss_feed] at h
  repeat' split at h
  all_goals first
    | (cases h; exact strong_tryDesc net _ url name)
    | (cases h; simp_all [strongProps, rssHotlinkResult])
    | cases h

/-- Every Atom outcome satisfies the invariant; valid Atom results always
record `image_source = summary`. -/
theorem strong_atom (net : List Char → Probe) (root : AtomRoot)
    (url : List Char) (name : Option (List Char)) :
    strongProps (validate_atom_feed net root url name) ∧
    ((validate_atom_feed net root url name).is_valid = true →
      (validate_atom_feed net root url name).image_source = some (lc "summary")) := by
  simp only [validate_atom_feed]
  repeat' split
  all_goals simp_all [strongProps]

/-- Every `validate_feed` outcome satisfies the invariant. -/
theorem strong_feed (net : List Char → Probe) (fetched : FetchOutcome)
    (url : List Char) (name : Option (List Char)) :
    strongProps (validate_feed net fetched url name) := by
  unfold validate_feed
  split
  · simp [strongProps]
  · simp [strongProps]
  · simp [strongProps]
  · split
    · next hok => exact strong_rss net _ url name _ hok
    · simp [strongProps]
  · exact (strong_atom net _ url name).1

/-- The batch validator is the filter-partition of the per-feed results. -/
theorem vmf_eq (net : List Char → Probe) (fetch : List Char → FetchOutcome)
    (feeds : List (List Char × List Char)) :
    validate_multiple_feeds net fetch feeds =
      ((feeds.map (fun p => validate_feed net (fetch p.2) p.2 (some p.1))).filter
         (fun r => r.is_valid),
       (feeds.map (fun p => validate_feed net (fetch p.2) p.2 (some p.1))).filter
         (fun r => !r.is_valid)) := by
  induction feeds with
  | nil => rfl
  | cons hd tl ih =>
    obtain ⟨name, url⟩ := hd
    simp only [validate_multiple_feeds, ih, List.map_cons, List.filter_cons]
    by_cases hv : (validate_feed net (fetch url) url (some name)).is_valid
    · simp [hv]
    · simp [hv]

/-- The two output lists of the batch validator account for every entry. -/
theorem vmf_length (net : List Char → Probe) (fetch : List Char → FetchOutcome)
    (feeds : List (List Char × List Char)) :
    (validate_multiple_feeds net fetch feeds).1.length +
      (validate_multiple_feeds net fetch feeds).2.length = feeds.length := by
  induction feeds with
  | nil => rfl
  | cons hd tl ih =>
    obtain ⟨name, url⟩ := hd
    simp only [validate_multiple_feeds, List.length_cons]
    split
    · simp only [List.length_cons]
      omega
    · simp only [List.length_cons]
      omega

/-- A non-dated link plus both promo phrases in the description force the
RSS promo classifier to answer `true`. -/
theorem promo_rss_true_of_phrases (item : RssItem) (t : Option (List Char))
    (le : Elem) (l : List Char) (de : HtmlElem) (h : Html)
    (hlink : item.link = some le) (hltext : le.text = some l)
    (hnd : (lastSlashSegment l).any Char.isDigit = false)
    (hdesc : item.description = some de) (hdt : de.text = some h)
    (h1 : containsSub (pyLower h.raw) (lc "explore the archive") = true)
    (h2 : containsSub (pyLower h.raw) (lc "read extra content") = true) :
    is_generic_promo_rss item t = true := by
  have hraw : h.raw.isEmpty = false := by
    cases hr : h.raw with
    | nil => rw [hr] at h1; simp [pyLower, containsSub, lc] at h1
    | cons a as => rfl
  have hld : rssLinkHasDate item = false := by
    simp [rssLinkHasDate, hlink, hltext, hnd]
  simp only [is_generic_promo_rss, hld, Bool.not_false, if_true]
  split
  · rfl
  · simp [hdesc, hdt, hraw, h1, h2]

/-! ## Claim theorems -/
/-- C1: for every ValidationResult produced by validate_feed, a valid
result carries a non-empty image URL that passes URL-syntax validity
(non-empty scheme and host, `is_valid_image_url`) with `image_source` and
`feed_type` set, and an invalid result carries an error message and no
image URL. -/
theorem C1_validity_invariant (net : List Char → Probe)
    (fetched : FetchOutcome) (url : List Char) (name : Option (List Char)) :
    ((validate_feed net fetched url name).is_valid = true →
      (∃ u, (validate_feed net fetched url name).image_url = some u ∧
        u.isEmpty = false ∧ is_valid_image_url u = true) ∧
      (validate_feed net fetched url name).image_source.isSome = true ∧
      (validate_feed net fetched url name).feed_type.isSome = true) ∧
    ((validate_feed net fetched url name).is_valid = false →
      (validate_feed net fetched url name).error_message.isSome = true ∧
      (validate_feed net fetched url name).image_url = none) := by
  obtain ⟨h1, h2⟩ := strong_feed net fetched url name
  refine ⟨fun hv => ?_, h2⟩
  obtain ⟨ha, hb, hc⟩ := h1 hv
  refine ⟨ha, ?_, hc⟩
  rcases hb with h | h | h | h <;> simp [h]

/-- Witness for C1 at an accepted RSS enclosure feed and at a failed
request. -/
theorem C1_validity_invariant_witness :
    ((∃ u, (validate_feed netAllOK (.rssDoc ⟨some ⟨[scenarioAItem]⟩⟩)
        scenarioAUrl none).image_url = some u ∧
      u.isEmpty = false ∧ is_valid_image_url u = true) ∧
     (validate_feed netAllOK (.rssDoc ⟨some ⟨[scenarioAItem]⟩⟩)
        scenarioAUrl none).image_source.isSome = true ∧
     (validate_feed netAllOK (.rssDoc ⟨some ⟨[scenarioAItem]⟩⟩)
        scenarioAUrl none).feed_type.isSome = true) ∧
    ((validate_feed netAllOK (.requestError (lc "boom"))
        scenarioAUrl none).error_message.isSome = true ∧
     (validate_feed netAllOK (.requestError (lc "boom"))
        scenarioAUrl none).image_url = none) :=
  ⟨(C1_validity_invariant netAllOK (.rssDoc ⟨some ⟨[scenarioAItem]⟩⟩)
      scenarioAUrl none).1 (by decide),
   (C1_validity_invariant netAllOK (.requestError (lc "boom"))
      scenarioAUrl none).2 (by decide)⟩

/-- C2: validate_multiple_feeds is total on its modelled inputs and returns
exactly one result per entry, partitioned into (valid, invalid) by
`is_valid`; each output list is the filter of the per-feed results, so one
failure of one feed never affects the result of another. -/
theorem C2_batch_partition (net : List Char → Probe)
    (fetch : List Char → FetchOutcome) (feeds : List (List Char × List Char)) :
    (validate_multiple_feeds net fetch feeds).1 =
      (feeds.map (fun p => validate_feed net (fetch p.2) p.2 (some p.1))).filter
        (fun r => r.is_valid) ∧
    (validate_multiple_feeds net fetch feeds).2 =
      (feeds.map (fun p => validate_feed net (fetch p.2) p.2 (some p.1))).filter
        (fun r => !r.is_valid) ∧
    (validate_multiple_feeds net fetch feeds).1.length +
      (validate_multiple_feeds net fetch feeds).2.length = feeds.length ∧
    (∀ r ∈ (validate_multiple_feeds net fetch feeds).1, r.is_valid = true) ∧
    (∀ r ∈ (validate_multiple_feeds net fetch feeds).2, r.is_valid = false) := by
  refine ⟨?_, ?_, vmf_length net fetch feeds, ?_, ?_⟩
  · rw [vmf_eq]
  · rw [vmf_eq]
  · intro r hr
    rw [vmf_eq] at hr
    exact (List.mem_filter.mp hr).2
  · intro r hr
    rw [vmf_eq] at hr
    simpa using (List.mem_filter.mp hr).2

/-- Witness for C2 on a two-feed batch (one valid, one invalid). -/
theorem C2_batch_partition_witness :
    (validate_multiple_feeds netAllOK fetchW feedsW).1.length +
      (validate_multiple_feeds netAllOK fetchW feedsW).2.length =
      feedsW.length :=
  (C2_batch_partition netAllOK fetchW feedsW).2.2.1

/-- C3 counterexample: an Atom entry whose summary has text but no `<img>`
and whose content holds a syntactically valid `<img src>` is NOT validated
from the content image: the result is invalid (no valid image found). -/
theorem C3_counterexample :
    atomSummaryText c3entry = some c3summaryHtml ∧
    (runExtractor c3summaryHtml.tags).image_url = none ∧
    atomContentText c3entry = some c3contentHtml ∧
    (runExtractor c3contentHtml.tags).image_url =
      some (lc "https://cdn.example/b.png") ∧
    is_valid_image_url (lc "https://cdn.example/b.png") = true ∧
    (validate_feed netAllOK (.atomDoc ⟨[c3entry]⟩) scenarioAUrl none).is_valid
      = false ∧
    (validate_feed netAllOK (.atomDoc ⟨[c3entry]⟩) scenarioAUrl none).image_url
      = none := by
  refine ⟨rfl, by decide, rfl, by decide, by decide, by decide, by decide⟩

/-- C3 amended: the Atom image search falls back from summary to content
only when the summary text is absent or empty.  An entry whose summary has
text but no truthy image yields the no-valid-image invalid result whatever
its content holds; when the summary text is absent or empty and the content
text carries an accessible valid `<img src>`, the result is valid with that
content image. -/
theorem C3_amended_fallback (net : List Char → Probe) (url : List Char)
    (name : Option (List Char)) (entry : AtomEntry) (rest : List AtomEntry) :
    (∀ sh : Html, atomSummaryText entry = some sh → sh.raw.isEmpty = false →
      truthyS (runExtractor sh.tags).image_url = false →
      is_generic_promo_atom entry (atomEntryTitle entry) entry.link = false →
      (validate_atom_feed net ⟨entry :: rest⟩ url name).is_valid = false ∧
      (validate_atom_feed net ⟨entry :: rest⟩ url name).error_message =
        some (lc "No valid image found in summary or content")) ∧
    (∀ (ch : Html) (iu : List Char),
      truthyHtml (atomSummaryText entry) = false →
      atomContentText entry = some ch → ch.raw.isEmpty = false →
      (runExtractor ch.tags).image_url = some iu → iu.isEmpty = false →
      is_valid_image_url iu = true → test_image_access (net iu) = true →
      is_generic_promo_atom entry (atomEntryTitle entry) entry.link = false →
      (validate_atom_feed net ⟨entry :: rest⟩ url name).is_valid = true ∧
      (validate_atom_feed net ⟨entry :: rest⟩ url name).image_url = some iu) := by
  constructor
  · intro sh hs hraw hni hp
    have hdt : atomDescriptionText entry = some sh := by
      simp [atomDescriptionText, truthyHtml, hs, hraw]
    cases himg : (runExtractor sh.tags).image_url with
    | none => simp [validate_atom_feed, hp, hdt, hraw, himg]
    | some iu =>
      rw [himg] at hni
      have hie : iu.isEmpty = true := by simpa [truthyS] using hni
      simp [validate_atom_feed, hp, hdt, hraw, himg, hie]
  · intro ch iu hsf hct hraw himg hne hvalid hacc hp
    have hdt : atomDescriptionText entry = some ch := by
      unfold atomDescriptionText
      rw [hsf, hct]
      simp [truthyHtml, hraw]
    simp [validate_atom_feed, hp, hdt, hraw, himg, hne, hvalid, hacc]

/-- Witness for the amended C3 at the two concrete Atom entries. -/
theorem C3_amended_fallback_witness :
    ((validate_atom_feed netAllOK ⟨[c3entry]⟩ scenarioAUrl none).is_valid
        = false ∧
     (validate_atom_feed netAllOK ⟨[c3entry]⟩ scenarioAUrl none).error_message
        = some (lc "No valid image found in summary or content")) ∧
    ((validate_atom_feed netAllOK ⟨[c4entry]⟩ scenarioAUrl none).is_valid
        = true ∧
     (validate_atom_feed netAllOK ⟨[c4entry]⟩ scenarioAUrl none).image_url
        = some (lc "https://cdn.example/b.png")) :=
  ⟨(C3_amended_fallback netAllOK scenarioAUrl none c3entry []).1
      c3summaryHtml rfl (by decide) (by decide) (by decide),
   (C3_amended_fallback netAllOK scenarioAUrl none c4entry []).2
      c3contentHtml (lc "https://cdn.example/b.png") (by decide) rfl
      (by decide) (by decide) (by decide) (by decide) (by decide) (by decide)⟩

/-- C4 counterexample: an Atom entry with no summary element whose image is
located in `content` is still recorded with `image_source = summary`, not
by its actual source. -/
theorem C4_counterexample :
    atomSummaryText c4entry = none ∧
    atomContentText c4entry = some c3contentHtml ∧
    (validate_feed netAllOK (.atomDoc ⟨[c4entry]⟩) scenarioAUrl none).is_valid
      = true ∧
    (validate_feed netAllOK (.atomDoc ⟨[c4entry]⟩) scenarioAUrl none).image_url
      = some (lc "https://cdn.example/b.png") ∧
    (validate_feed netAllOK (.atomDoc ⟨[c4entry]⟩) scenarioAUrl
      none).image_source = some (lc "summary") ∧
    ¬(validate_feed netAllOK (.atomDoc ⟨[c4entry]⟩) scenarioAUrl
      none).image_source = some (lc "content") := by
  refine ⟨rfl, rfl, by decide, by decide, by decide, by decide⟩

/-- C4 amended: for every valid result `image_source` is one of
`enclosure`, `description`, `content:encoded` (the code spells the
content-module tag with a colon) or `summary`; an RSS image located in
content:encoded is recorded as `content:encoded`; an Atom image is always
recorded as `summary`, even when it was located in `content`. -/
theorem C4_amended_image_source (net : List Char → Probe)
    (fetched : FetchOutcome) (url : List Char) (name : Option (List Char)) :
    ((validate_feed net fetched url name).is_valid = true →
      ((validate_feed net fetched url name).image_source = some (lc "enclosure") ∨
       (validate_feed net fetched url name).image_source = some (lc "description") ∨
       (validate_feed net fetched url name).image_source =
         some (lc "content:encoded") ∨
       (validate_feed net fetched url name).image_source = some (lc "summary"))) ∧
    (∀ aroot, fetched = FetchOutcome.atomDoc aroot →
      (validate_feed net fetched url name).is_valid = true →
      (validate_feed net fetched url name).image_source = some (lc "summary")) ∧
    ((validate_feed netAllOK (.rssDoc ⟨some ⟨[ceItem]⟩⟩) scenarioAUrl
        none).is_valid = true ∧
     (validate_feed netAllOK (.rssDoc ⟨some ⟨[ceItem]⟩⟩) scenarioAUrl
        none).image_source = some (lc "content:encoded")) := by
  refine ⟨fun hv => ((strong_feed net fetched url name).1 hv).2.1, ?_, by decide⟩
  intro aroot heq hv
  subst heq
  exact (strong_atom net aroot url name).2 hv

/-- Witness for the amended C4 at a concrete Atom content-image entry. -/
theorem C4_amended_image_source_witness :
    (validate_feed netAllOK (.atomDoc ⟨[c4entry]⟩) scenarioAUrl
      none).image_source = some (lc "summary") :=
  (C4_amended_image_source netAllOK (.atomDoc ⟨[c4entry]⟩) scenarioAUrl
    none).2.1 ⟨[c4entry]⟩ rfl (by decide)

/-- C5 (scenario A): one RSS item with enclosure
`https://cdn.example/a.png`, link ending `/2024/05/01/strip`, and an empty
description validates as valid with `image_source = enclosure`, that image
URL, and no caption; the same holds when the description element carries
image-free text. -/
theorem C5_scenarioA :
    ((validate_feed netAllOK (.rssDoc ⟨some ⟨[scenarioAItem]⟩⟩) scenarioAUrl
        none).is_valid = true ∧
     (validate_feed netAllOK (.rssDoc ⟨some ⟨[scenarioAItem]⟩⟩) scenarioAUrl
        none).image_source = some (lc "enclosure") ∧
     (validate_feed netAllOK (.rssDoc ⟨some ⟨[scenarioAItem]⟩⟩) scenarioAUrl
        none).image_url = some (lc "https://cdn.example/a.png") ∧
     (validate_feed netAllOK (.rssDoc ⟨some ⟨[scenarioAItem]⟩⟩) scenarioAUrl
        none).caption = none) ∧
    ((validate_feed netAllOK (.rssDoc ⟨some ⟨[scenarioAItemTextDesc]⟩⟩)
        scenarioAUrl none).is_valid = true ∧
     (validate_feed netAllOK (.rssDoc ⟨some ⟨[scenarioAItemTextDesc]⟩⟩)
        scenarioAUrl none).image_source = some (lc "enclosure") ∧
     (validate_feed netAllOK (.rssDoc ⟨some ⟨[scenarioAItemTextDesc]⟩⟩)
        scenarioAUrl none).caption = none) := by
  refine ⟨⟨by decide, by decide, by decide, by decide⟩,
          ⟨by decide, by decide, by decide⟩⟩

/-- C6: an RSS feed in which the link of the first item has a digit-free last path
segment and whose description contains both promo phrases
(case-insensitive) is rejected as promotional, regardless of any image in
the item. -/
theorem C6_promo_phrase_rejection (net : List Char → Probe) (url : List Char)
    (name : Option (List Char)) (item : RssItem) (rest : List RssItem)
    (le : Elem) (l : List Char) (de : HtmlElem) (h : Html)
    (hlink : item.link = some le) (hltext : le.text = some l)
    (hnd : (lastSlashSegment l).any Char.isDigit = false)
    (hdesc : item.description = some de) (hdt : de.text = some h)
    (h1 : containsSub (pyLower h.raw) (lc "explore the archive") = true)
    (h2 : containsSub (pyLower h.raw) (lc "read extra content") = true) :
    (validate_feed net (.rssDoc ⟨some ⟨item :: rest⟩⟩) url name).is_valid
      = false ∧
    (validate_feed net (.rssDoc ⟨some ⟨item :: rest⟩⟩) url name).error_message
      = some (lc "Feed contains only generic promotional content") := by
  have hp := promo_rss_true_of_phrases item (rssItemTitle item) le l de h
    hlink hltext hnd hdesc hdt h1 h2
  simp [validate_feed, validate_rss_feed, hp]

/-- Witness for C6 at a concrete promo item that carries an enclosure
image. -/
theorem C6_promo_phrase_rejection_witness :
    (validate_feed netAllOK (.rssDoc ⟨some ⟨[promoItem]⟩⟩) scenarioAUrl
      none).is_valid = false ∧
    (validate_feed netAllOK (.rssDoc ⟨some ⟨[promoItem]⟩⟩) scenarioAUrl
      none).error_message =
      some (lc "Feed contains only generic promotional content") :=
  C6_promo_phrase_rejection netAllOK scenarioAUrl none promoItem []
    promoLinkElem (lc "https://comics.example/archive/promo")
    ⟨some promoHtml⟩ promoHtml rfl rfl (by decide) rfl rfl
    (by decide) (by decide)

/-- C7: an RSS item or Atom entry in which the last path segment of the link contains a
digit is never classified as promo, whatever other promo signals are
present. -/
theorem C7_dated_link_override :
    (∀ (item : RssItem) (t : Option (List Char)) (le : Elem) (l : List Char),
      item.link = some le → le.text = some l →
      (lastSlashSegment l).any Char.isDigit = true →
      is_generic_promo_rss item t = false) ∧
    (∀ (entry : AtomEntry) (t : Option (List Char)) (lk : AtomLink)
       (href : List Char),
      lk.href = some href →
      (lastSlashSegment href).any Char.isDigit = true →
      is_generic_promo_atom entry t (some lk) = false) :=
  ⟨promo_rss_false_of_dated, promo_atom_false_of_dated⟩

/-- Witness for C7 at items whose promo signals are all present but whose
links are dated. -/
theorem C7_dated_link_override_witness :
    is_generic_promo_rss datedRssItem (rssItemTitle datedRssItem) = false ∧
    is_generic_promo_atom datedAtomEntry (atomEntryTitle datedAtomEntry)
      (some datedAtomLink) = false :=
  ⟨C7_dated_link_override.1 datedRssItem (rssItemTitle datedRssItem)
      datedLinkElem (lc "https://comics.example/strip/20240501") rfl rfl
      (by decide),
   C7_dated_link_override.2 datedAtomEntry (atomEntryTitle datedAtomEntry)
      datedAtomLink (lc "https://comics.example/strip/20240501") rfl
      (by decide)⟩

/-- C8: the probe reports inaccessible exactly when the HEAD status is 403,
or is otherwise ≥400 and the streamed-GET retry answers 403 or ≥400; a
transport exception (`none`) in either request yields accessible; and an
inaccessible probe marks an otherwise fully valid RSS enclosure feed
invalid with the hotlink-protection error. -/
theorem C8_accessibility_probe :
    (∀ p : Probe, test_image_access p = false ↔
      ∃ s, p.headStatus = some s ∧
        (s = 403 ∨ (400 ≤ s ∧ ∃ g, p.getStatus = some g ∧
          (g = 403 ∨ 400 ≤ g)))) ∧
    (∀ (net : List Char → Probe) (url : List Char) (name : Option (List Char))
       (item : RssItem) (rest : List RssItem) (enc : EnclosureElem)
       (u : List Char),
      item.enclosure = some enc → enc.url = some u →
      u.isEmpty = false → is_valid_image_url u = true →
      is_generic_promo_rss item (rssItemTitle item) = false →
      test_image_access (net u) = false →
      (validate_feed net (.rssDoc ⟨some ⟨item :: rest⟩⟩) url name).is_valid
        = false ∧
      (validate_feed net (.rssDoc ⟨some ⟨item :: rest⟩⟩) url
        name).error_message =
        some (lc "Image has hotlink protection (403 Forbidden)")) := by
  refine ⟨access_false_iff, ?_⟩
  intro net url name item rest enc u henc hu hne hvalid hpromo hacc
  simp [validate_feed, validate_rss_feed, hpromo, henc, hu, hne, hvalid,
    hacc, rssHotlinkResult]

/-- Witness for C8: a 403 HEAD answer is inaccessible and marks the feed
invalid with the hotlink error. -/
theorem C8_accessibility_probe_witness :
    (test_image_access ⟨some 403, some 200⟩ = false ↔
      ∃ s, (Probe.mk (some 403) (some 200)).headStatus = some s ∧
        (s = 403 ∨ (400 ≤ s ∧
          ∃ g, (Probe.mk (some 403) (some 200)).getStatus = some g ∧
            (g = 403 ∨ 400 ≤ g)))) ∧
    ((validate_feed net403 (.rssDoc ⟨some ⟨[hotItem]⟩⟩) scenarioAUrl
        none).is_valid = false ∧
     (validate_feed net403 (.rssDoc ⟨some ⟨[hotItem]⟩⟩) scenarioAUrl
        none).error_message =
       some (lc "Image has hotlink protection (403 Forbidden)")) :=
  ⟨C8_accessibility_probe.1 ⟨some 403, some 200⟩,
   C8_accessibility_probe.2 net403 scenarioAUrl none hotItem [] hotEnc
     (lc "https://img.example/a.png") rfl rfl (by decide) (by decide)
     (by decide) (by decide)⟩

/-- C9: the genericness filter rejects `Comic strip for 2026/02/04`,
while the structural-paragraph extractor accepts the quoted,
transcript-free candidate `He muttered, "not again."` as the caption. -/
theorem C9_caption_examples :
    is_generic_caption (lc "Comic strip for 2026/02/04") = true ∧
    is_generic_caption c9pText = false ∧
    extract_caption (some c9parser) (some (lc "T")) none (some c9html) =
      some c9pText := by
  refine ⟨by decide, by decide, by decide⟩

/-- C10: the streaming image extractor ends on the attributes of the first
`<img>` whose `src` is present and non-empty: earlier src-less or
empty-src `img` tags are overwritten, and the captured `title` and `alt`
come from the same tag as the accepted `src`. -/
theorem C10_first_image_capture (tags : List StartTag) (t : StartTag)
    (h : firstTruthySrcImg tags = some t) :
    runExtractor tags =
      { image_url := attrsGet t.attrs (lc "src"),
        image_title := attrsGet t.attrs (lc "title"),
        image_alt := attrsGet t.attrs (lc "alt") } := by
  unfold runExtractor
  exact foldl_handle_first_img tags _ t rfl h

/-- Witness for C10 on a stream with skipped `img` tags before and an
ignored one after the accepted tag. -/
theorem C10_first_image_capture_witness :
    firstTruthySrcImg w10tags = some w10good ∧
    runExtractor w10tags =
      { image_url := attrsGet w10good.attrs (lc "src"),
        image_title := attrsGet w10good.attrs (lc "title"),
        image_alt := attrsGet w10good.attrs (lc "alt") } :=
  ⟨by decide, C10_first_image_capture w10tags w10good (by decide)⟩

end ComicFeed
